import Mathlib

/-!
Verification of the ncstream frame reader and array materializer
(src/siphon/cdmr/ncstream.py) against its natural-language specification.

The byte source (a Python file object) is modelled as a `List Nat` of the
bytes still unread; `fobj.read(k)` returns up to `k` bytes, so it becomes
`(s.take k, s.drop k)`.  Python exceptions become the `Err` type below.
The protobuf schema decoder (`ncStream_pb2`, an external collaborator per
the spec) is abstracted: `ParseFromString` for `Header` and `Error` keeps
the raw block bytes as the message content, and the `Data` /
`StructureData` parsers are arbitrary function parameters.
-/

deriving instance DecidableEq for Except

namespace Ncstream

/-- Python exceptions raised by the decoder, named by the spec's error
taxonomy where the spec names them.  `streamTruncated` is the
`TypeError` raised by `ord(b'')` when the source ends mid-varint;
`corruptedPayload` covers the `AssertionError` of the decompressed-size
check and the `ValueError`s of `np.frombuffer` / `reshape` /
`np.fromstring`; `serverError` is the `RuntimeError` raised for an ERR
frame; `attributeError`, `keyError`, `typeError` and `indexError` are the
like-named Python exceptions. -/
inductive Err where
  | streamTruncated
  | unsupportedDataType (code : Nat)
  | unsupportedCompression (code : Nat)
  | corruptedPayload
  | serverError (msg : List Nat)
  | attributeError
  | keyError
  | typeError
  | indexError
deriving DecidableEq

/-- MAGIC_HEADER = b'\xad\xec\xce\xda' (ncstream.py line 13). -/
def MAGIC_HEADER : List Nat := [0xad, 0xec, 0xce, 0xda]

/-- MAGIC_DATA = b'\xab\xec\xce\xba' (line 14). -/
def MAGIC_DATA : List Nat := [0xab, 0xec, 0xce, 0xba]

/-- MAGIC_VDATA = b'\xab\xef\xfe\xba' (line 15). -/
def MAGIC_VDATA : List Nat := [0xab, 0xef, 0xfe, 0xba]

/-- MAGIC_VEND = b'\xed\xef\xfe\xda' (line 16). -/
def MAGIC_VEND : List Nat := [0xed, 0xef, 0xfe, 0xda]

/-- MAGIC_ERR = b'\xab\xad\xba\xda' (line 17). -/
def MAGIC_ERR : List Nat := [0xab, 0xad, 0xba, 0xda]

/-- Loop body of `read_var_int` (lines 244-253): `val` and `shift` are the
accumulator and current shift; each byte contributes its low 7 bits
shifted left by `shift`, OR-ed in, and the loop stops on the first byte
whose high bit is clear.  Reading one byte from an exhausted source is
`ord(b'')`, a TypeError, modelled as `streamTruncated`. -/
def read_var_int_aux : List Nat → Nat → Nat → Except Err (Nat × List Nat)
  | [], _, _ => .error .streamTruncated
  | b :: rest, val, shift =>
    if b &&& 0x80 = 0 then .ok (((b &&& 0x7F) <<< shift) ||| val, rest)
    else read_var_int_aux rest (((b &&& 0x7F) <<< shift) ||| val) (shift + 7)

/-- read_var_int (lines 240-253): decode one base-128 varint. -/
def read_var_int (s : List Nat) : Except Err (Nat × List Nat) :=
  read_var_int_aux s 0 0

/-- read_magic (lines 93-94): `fobj.read(4)`, which returns up to 4 bytes. -/
def read_magic (s : List Nat) : List Nat × List Nat :=
  (s.take 4, s.drop 4)

/-- read_block (lines 97-99): one varint length `num`, then `fobj.read(num)`.
Note that `fobj.read(num)` returns *up to* `num` bytes; no truncation
check is made on the block body. -/
def read_block (s : List Nat) : Except Err (List Nat × List Nat) :=
  match read_var_int s with
  | .error e => .error e
  | .ok (num, s₁) => .ok (s₁.take num, s₁.drop num)

/-- The value the spec ascribes to a varint byte string: each byte's low
7 bits shifted left by 7 times the byte's index, OR-ed together;
`i` is the index of the first byte of the list. -/
def varintSpecValFrom : Nat → List Nat → Nat
  | _, [] => 0
  | i, b :: bs => ((b &&& 0x7F) <<< (7 * i)) ||| varintSpecValFrom (i + 1) bs

/-- Spec value of a whole varint byte string (indices from 0). -/
def varintSpecVal (bs : List Nat) : Nat :=
  varintSpecValFrom 0 bs

/-- Modelled from the spec: the repository has no write path, so no varint
encoder exists in the source; this is the base-128 encoding of the spec's
glossary and section 8 property 1 (low 7 bits per byte, least-significant
group first, high bit set on every byte except the last). -/
def encode_var_int (n : Nat) : List Nat :=
  if h : n < 128 then [n] else (n % 128 + 128) :: encode_var_int (n / 128)
termination_by n
decreasing_by
  exact Nat.div_lt_self (by omega) (by omega)

theorem read_var_int_aux_length {s : List Nat} {v sh n : Nat} {s' : List Nat}
    (h : read_var_int_aux s v sh = .ok (n, s')) : s'.length < s.length := by
  induction s generalizing v sh with
  | nil => simp [read_var_int_aux] at h
  | cons b rest ih =>
    rw [read_var_int_aux] at h
    split at h
    · simp only [Except.ok.injEq, Prod.mk.injEq] at h
      simp [← h.2]
    · have := ih h
      simp only [List.length_cons]
      omega

theorem read_var_int_length {s : List Nat} {n : Nat} {s' : List Nat}
    (h : read_var_int s = .ok (n, s')) : s'.length < s.length :=
  read_var_int_aux_length h

theorem read_block_length {s : List Nat} {b s' : List Nat}
    (h : read_block s = .ok (b, s')) : s'.length < s.length := by
  rw [read_block] at h
  split at h
  · exact absurd h (by simp)
  · rename_i num s₁ heq
    simp only [Except.ok.injEq, Prod.mk.injEq] at h
    have h1 := read_var_int_length heq
    have h2 : s'.length ≤ s₁.length := by
      rw [← h.2]; simp
    omega

theorem and_128_eq_zero_iff (b : Nat) : b &&& 0x80 = 0 ↔ b / 128 % 2 = 0 := by
  have h : b &&& 0x80 = (b.testBit 7).toNat * 2 ^ 7 := Nat.and_two_pow b 7
  rw [Nat.testBit_to_div_mod] at h
  have h2 : (2 : Nat) ^ 7 = 128 := by norm_num
  rw [h2] at h
  rw [h]
  by_cases hb : b / 128 % 2 = 1
  · simp [hb]
  · simp [hb]
    omega

theorem and_127_eq_mod (b : Nat) : b &&& 0x7F = b % 128 := by
  have := @Nat.and_pow_two_sub_one_eq_mod b 7
  norm_num at this
  exact this

theorem varint_aux_spec {last : Nat} (rest : List Nat) (hl : last &&& 0x80 = 0) :
    ∀ (pre : List Nat) (i v : Nat), (∀ b ∈ pre, b &&& 0x80 ≠ 0) →
      read_var_int_aux (pre ++ last :: rest) v (7 * i) =
        .ok (varintSpecValFrom i (pre ++ [last]) ||| v, rest) := by
  intro pre
  induction pre with
  | nil =>
    intro i v _
    simp only [List.nil_append, read_var_int_aux, hl, if_pos]
    rw [varintSpecValFrom, varintSpecValFrom, Nat.or_zero]
  | cons b pre' ih =>
    intro i v hpre
    have hb : b &&& 0x80 ≠ 0 := hpre b (by simp)
    simp only [List.cons_append, read_var_int_aux, List.append_eq]
    rw [if_neg hb]
    have h7 : 7 * i + 7 = 7 * (i + 1) := by ring
    rw [h7, ih (i + 1) _ (fun x hx => hpre x (by simp [hx]))]
    simp only [List.cons_append, varintSpecValFrom]
    rw [← Nat.lor_assoc,
      Nat.lor_comm (varintSpecValFrom (i + 1) (pre' ++ [last])) ((b &&& 0x7F) <<< (7 * i))]

theorem shift_or_split (n sh : Nat) (_hn : 128 ≤ n) :
    (n / 128) <<< (sh + 7) ||| (n % 128) <<< sh = n <<< sh := by
  have hp : (0 : Nat) < 2 ^ sh := Nat.pos_pow_of_pos sh (by omega)
  have hm : n % 128 < 128 := Nat.mod_lt _ (by omega)
  have hlt : (n % 128) * 2 ^ sh < 2 ^ (sh + 7) := by
    calc (n % 128) * 2 ^ sh < 128 * 2 ^ sh := (Nat.mul_lt_mul_right hp).mpr hm
      _ = 2 ^ (sh + 7) := by rw [pow_add]; ring
  have key := Nat.mul_add_lt_is_or hlt (n / 128)
  rw [Nat.shiftLeft_eq, Nat.shiftLeft_eq, Nat.shiftLeft_eq,
    mul_comm (n / 128) (2 ^ (sh + 7)), ← key]
  have hd := Nat.div_add_mod n 128
  calc 2 ^ (sh + 7) * (n / 128) + n % 128 * 2 ^ sh
      = (128 * (n / 128) + n % 128) * 2 ^ sh := by rw [pow_add]; ring
    _ = n * 2 ^ sh := by rw [hd]

theorem varint_roundtrip_aux (n : Nat) :
    ∀ (rest : List Nat) (v sh : Nat),
      read_var_int_aux (encode_var_int n ++ rest) v sh = .ok ((n <<< sh) ||| v, rest) := by
  induction n using Nat.strong_induction_on with
  | _ n ih =>
    intro rest v sh
    rw [encode_var_int]
    by_cases h : n < 128
    · rw [dif_pos h]
      have hstop : n &&& 0x80 = 0 := by
        rw [and_128_eq_zero_iff]
        omega
      have hlow : n &&& 0x7F = n := by
        rw [and_127_eq_mod]
        omega
      simp [read_var_int_aux, hstop, hlow]
    · rw [dif_neg h]
      have hcont : (n % 128 + 128) &&& 0x80 ≠ 0 := by
        intro hc
        rw [and_128_eq_zero_iff] at hc
        omega
      have hlow : (n % 128 + 128) &&& 0x7F = n % 128 := by
        rw [and_127_eq_mod]
        omega
      simp only [List.cons_append, read_var_int_aux, hlow, List.append_eq]
      rw [if_neg hcont, ih (n / 128) (Nat.div_lt_self (by omega) (by omega))]
      rw [← Nat.lor_assoc, shift_or_split n sh (by omega)]

theorem varint_truncated_aux :
    ∀ (s : List Nat) (v sh : Nat), (∀ b ∈ s, b &&& 0x80 ≠ 0) →
      read_var_int_aux s v sh = .error .streamTruncated := by
  intro s
  induction s with
  | nil => intro v sh _; rfl
  | cons b rest ih =>
    intro v sh hs
    have hb : b &&& 0x80 ≠ 0 := hs b (by simp)
    rw [read_var_int_aux, if_neg hb]
    exact ih _ _ (fun x hx => hs x (by simp [hx]))

/-- C9: the varint reader accumulates each byte's low 7 bits shifted left by
7 times the byte's index, stops at the first byte whose high bit is clear
(leaving the remaining bytes unread), decodes any base-128 encoding back to
the encoded value (in particular the seven spec values, see the witness),
and fails with StreamTruncated when the source ends before a terminating
byte is seen. -/
theorem read_var_int_spec :
    (∀ (pre : List Nat) (last : Nat) (rest : List Nat),
        (∀ b ∈ pre, b &&& 0x80 ≠ 0) → last &&& 0x80 = 0 →
        read_var_int (pre ++ last :: rest) = .ok (varintSpecVal (pre ++ [last]), rest))
    ∧ (∀ (n : Nat) (rest : List Nat),
        read_var_int (encode_var_int n ++ rest) = .ok (n, rest))
    ∧ (∀ s : List Nat, (∀ b ∈ s, b &&& 0x80 ≠ 0) →
        read_var_int s = .error .streamTruncated) := by
  refine ⟨?_, ?_, ?_⟩
  · intro pre last rest hpre hl
    have h := varint_aux_spec rest hl pre 0 0 hpre
    rw [read_var_int, varintSpecVal]
    simpa using h
  · intro n rest
    have h := varint_roundtrip_aux n rest 0 0
    rw [read_var_int]
    simpa using h
  · intro s hs
    exact varint_truncated_aux s 0 0 hs

/-- Witness for C9: concrete instances, including the spec round-trip values
0, 1, 127, 128, 300, 16384 and 2097151. -/
theorem read_var_int_spec_witness :
    read_var_int ([0xAC] ++ 0x02 :: []) = .ok (varintSpecVal ([0xAC] ++ [0x02]), [])
    ∧ varintSpecVal ([0xAC] ++ [0x02]) = 300
    ∧ read_var_int (encode_var_int 0 ++ []) = .ok (0, [])
    ∧ read_var_int (encode_var_int 1 ++ []) = .ok (1, [])
    ∧ read_var_int (encode_var_int 127 ++ []) = .ok (127, [])
    ∧ read_var_int (encode_var_int 128 ++ []) = .ok (128, [])
    ∧ read_var_int (encode_var_int 300 ++ []) = .ok (300, [])
    ∧ read_var_int (encode_var_int 16384 ++ []) = .ok (16384, [])
    ∧ read_var_int (encode_var_int 2097151 ++ []) = .ok (2097151, [])
    ∧ read_var_int [0x80, 0x80] = .error .streamTruncated :=
  ⟨read_var_int_spec.1 [0xAC] 0x02 [] (by decide) (by decide), by decide,
   read_var_int_spec.2.1 0 [], read_var_int_spec.2.1 1 [],
   read_var_int_spec.2.1 127 [], read_var_int_spec.2.1 128 [],
   read_var_int_spec.2.1 300 [], read_var_int_spec.2.1 16384 [],
   read_var_int_spec.2.1 2097151 [],
   read_var_int_spec.2.2 [0x80, 0x80] (by decide)⟩

/-- C3 counterexample: a block whose varint length says 5 but whose source
holds only 2 more bytes is returned short (2 bytes) with no error, refuting
the claim that read_block returns exactly n bytes or fails with
StreamTruncated. -/
theorem read_block_short_read_cex :
    read_block [5, 10, 20] = .ok ([10, 20], []) ∧ ([10, 20] : List Nat).length ≠ 5 := by
  exact ⟨by decide, by decide⟩

/-- C3 amended: read_block first decodes one varint length n (propagating
StreamTruncated if the varint itself is cut off) and then returns
`min n remaining` bytes: a source holding fewer than n further bytes yields
the shorter remainder with no error. -/
theorem read_block_amended :
    (∀ (s : List Nat) (n : Nat) (s₁ : List Nat), read_var_int s = .ok (n, s₁) →
        read_block s = .ok (s₁.take n, s₁.drop n) ∧ (s₁.take n).length = min n s₁.length)
    ∧ (∀ (s : List Nat) (e : Err), read_var_int s = .error e → read_block s = .error e) := by
  constructor
  · intro s n s₁ h
    refine ⟨by simp only [read_block, h], by simp⟩
  · intro s e h
    simp only [read_block, h]

/-- Witness for C3's amended claim at concrete inputs. -/
theorem read_block_amended_witness :
    (read_block [5, 10, 20] = .ok (([10, 20] : List Nat).take 5, ([10, 20] : List Nat).drop 5)
      ∧ (([10, 20] : List Nat).take 5).length = min 5 ([10, 20] : List Nat).length)
    ∧ read_block [0x80] = .error .streamTruncated :=
  ⟨read_block_amended.1 [5, 10, 20] 5 [10, 20] (by decide),
   read_block_amended.2 [0x80] .streamTruncated (by decide)⟩

/-- DataType enum codes of the ncstream schema.  The generated protobuf
module (ncStream_pb2) is not part of src/; the codes are modelled from the
spec's enumeration order, with STRUCTURE = 8 and SEQUENCE = 9 attested by
the source comment at ncstream.py lines 153-154.  Only the identity of the
codes matters to the decoder. -/
def dtChar : Nat := 0

/-- stream.BYTE -/
def dtByte : Nat := 1

/-- stream.SHORT -/
def dtShort : Nat := 2

/-- stream.INT -/
def dtInt : Nat := 3

/-- stream.LONG -/
def dtLong : Nat := 4

/-- stream.FLOAT -/
def dtFloat : Nat := 5

/-- stream.DOUBLE -/
def dtDouble : Nat := 6

/-- stream.STRING -/
def dtString : Nat := 7

/-- stream.STRUCTURE (source comment, ncstream.py line 153) -/
def dtStructure : Nat := 8

/-- stream.SEQUENCE (source comment, ncstream.py line 154) -/
def dtSequence : Nat := 9

/-- stream.ENUM1 -/
def dtEnum1 : Nat := 10

/-- stream.ENUM2 -/
def dtEnum2 : Nat := 11

/-- stream.ENUM4 -/
def dtEnum4 : Nat := 12

/-- stream.OPAQUE -/
def dtOpaque : Nat := 13

/-- Compress enum codes: NONE = 0, DEFLATE = 1 (schema, modelled from the
spec's `compress (NONE|DEFLATE|other)`). -/
def compressNone : Nat := 0

/-- stream.DEFLATE -/
def compressDeflate : Nat := 1

/-- Byte order mark of a numpy dtype.  `native` is the '=' prefix, `big`
and `little` are '>' and '<', `notApplicable` is numpy's '|' for object
dtypes.  The model records the order that would be used to interpret
multi-byte elements (for one-byte and object dtypes it is immaterial). -/
inductive ByteOrder where
  | big
  | little
  | native
  | notApplicable
deriving DecidableEq

/-- Model of a numpy dtype: the type-code string of the source's
_dtypeLookup table (as a character list), the element width in bytes that
numpy derives from it, and the byte order. -/
structure NPDtype where
  typecode : List Char
  itemsize : Nat
  byteorder : ByteOrder
deriving DecidableEq

/-- numpy `dtype.newbyteorder(o)`: same element type, requested order. -/
def NPDtype.newbyteorder (dt : NPDtype) (o : ByteOrder) : NPDtype :=
  NPDtype.mk dt.typecode dt.itemsize o

/-- The table _dtypeLookup (ncstream.py lines 155-159): protocol type code to numpy
type string.  STRUCTURE and SEQUENCE are deliberately absent. -/
def _dtypeLookup : Nat → Option (List Char)
  | 0 => some ['S', '1']
  | 1 => some ['b']
  | 2 => some ['i', '2']
  | 3 => some ['i', '4']
  | 4 => some ['i', '8']
  | 5 => some ['f', '4']
  | 6 => some ['f', '8']
  | 7 => some ['O']
  | 10 => some ['B']
  | 11 => some ['u', '2']
  | 12 => some ['u', '4']
  | 13 => some ['O']
  | _ => none

/-- Element width numpy assigns to each type string reachable from
_dtypeLookup (including the unsigned substitutions). -/
def np_itemsize : List Char → Nat
  | ['S', '1'] => 1
  | ['b'] => 1
  | ['B'] => 1
  | ['i', '2'] => 2
  | ['i', '4'] => 4
  | ['i', '8'] => 8
  | ['u', '2'] => 2
  | ['u', '4'] => 4
  | ['u', '8'] => 8
  | ['f', '4'] => 4
  | ['f', '8'] => 8
  | ['O'] => 8
  | _ => 0

/-- Python `str.replace(old, new)` for a single-character pattern, as used
in `basic_type.replace('i', 'u')`. -/
def pyReplaceChar (old new : Char) (s : List Char) : List Char :=
  s.map fun c => if c = old then new else c

/-- data_type_to_numpy (ncstream.py lines 162-170).  `none` models the
KeyError of a lookup miss.  The Python signature defaults `unsigned` to
False; the model takes it explicitly. -/
def data_type_to_numpy (datatype : Nat) (unsigned : Bool) : Option NPDtype :=
  match _dtypeLookup datatype with
  | none => none
  | some basic =>
    if datatype = dtString ∨ datatype = dtOpaque then
      some (NPDtype.mk basic (np_itemsize basic) .notApplicable)
    else
      let basic := if unsigned then pyReplaceChar 'i' 'u' basic else basic
      some (NPDtype.mk basic (np_itemsize basic) .native)

/-- C4 (code bug): with the unsigned flag set, SHORT, INT and LONG are
substituted by the same-width unsigned encodings and STRING/OPAQUE ignore
the flag, but BYTE keeps its signed one-byte encoding 'b' because
`replace('i', 'u')` finds no 'i' in 'b' - the flag has no effect. -/
theorem data_type_to_numpy_unsigned_byte_bug :
    data_type_to_numpy dtByte true = data_type_to_numpy dtByte false
    ∧ data_type_to_numpy dtByte true = some (NPDtype.mk ['b'] 1 .native)
    ∧ data_type_to_numpy dtShort true = some (NPDtype.mk ['u', '2'] 2 .native)
    ∧ data_type_to_numpy dtInt true = some (NPDtype.mk ['u', '4'] 4 .native)
    ∧ data_type_to_numpy dtLong true = some (NPDtype.mk ['u', '8'] 8 .native)
    ∧ data_type_to_numpy dtString true = data_type_to_numpy dtString false
    ∧ data_type_to_numpy dtOpaque true = data_type_to_numpy dtOpaque false := by
  refine ⟨by decide, by decide, by decide, by decide, by decide, by decide, by decide⟩

/-- Fuel-bounded splitting of a byte list into consecutive pieces of `w`
bytes (the element chunks of a numpy view over a buffer).  The fuel is an
upper bound on the number of pieces; `chunkList` supplies enough. -/
def chunkAux (w : Nat) : Nat → List Nat → List (List Nat)
  | _, [] => []
  | 0, _ :: _ => []
  | fuel + 1, l => l.take w :: chunkAux w fuel (l.drop w)

/-- Split a byte list into consecutive `w`-byte element chunks. -/
def chunkList (w : Nat) (l : List Nat) : List (List Nat) :=
  if w = 0 then [] else chunkAux w l.length l

theorem chunkAux_spec {w : Nat} (hw : 0 < w) :
    ∀ (n fuel : Nat) (l : List Nat), l.length = w * n → l.length ≤ fuel →
      (chunkAux w fuel l).length = n ∧ ∀ c ∈ chunkAux w fuel l, c.length = w := by
  intro n
  induction n with
  | zero =>
    intro fuel l hlen _
    have hl0 : l = [] := by
      cases l with
      | nil => rfl
      | cons x xs =>
        exfalso
        simp only [List.length_cons] at hlen
        omega
    subst hl0
    cases fuel <;> simp [chunkAux]
  | succ m ih =>
    intro fuel l hlen hfuel
    have hmul : w * (m + 1) = w * m + w := by ring
    cases l with
    | nil =>
      exfalso
      simp only [List.length_nil] at hlen
      omega
    | cons x xs =>
      simp only [List.length_cons] at hlen hfuel
      cases fuel with
      | zero => omega
      | succ f =>
        have hlen' : ((x :: xs).drop w).length = w * m := by
          simp only [List.length_drop, List.length_cons]
          omega
        have hfuel' : ((x :: xs).drop w).length ≤ f := by
          simp only [List.length_drop, List.length_cons]
          omega
        have hrec := ih f ((x :: xs).drop w) hlen' hfuel'
        refine ⟨?_, ?_⟩
        · simp only [chunkAux, List.length_cons, hrec.1]
        · intro c hc
          simp only [chunkAux, List.mem_cons] at hc
          rcases hc with hc | hc
          · subst hc
            simp only [List.length_take, List.length_cons]
            omega
          · exact hrec.2 c hc

theorem chunkList_spec {w n : Nat} {l : List Nat} (hw : 0 < w)
    (hlen : l.length = w * n) :
    (chunkList w l).length = n ∧ ∀ c ∈ chunkList w l, c.length = w := by
  rw [chunkList, if_neg (by omega)]
  exact chunkAux_spec hw n l.length l hlen (le_refl _)

/-- Attribute.Type codes.  Modelled from the spec: the schema module is not
in src/; the spec lists STRING plus the numeric kinds BYTE..DOUBLE.  Only
identity matters; STRING is given code 0 and the numeric kinds reuse the
small codes in enumeration order. -/
def attSTRING : Nat := 0

/-- Attribute message (spec section 3: name, type, len, data: bytes,
sdata: string, unsigned: bool).  Modelled from the spec: the protobuf
schema is external; in particular `sdata` is declared a string there. -/
structure Attribute where
  name : String
  type : Nat
  len : Nat
  data : List Nat
  sdata : String
  unsigned : Bool
deriving DecidableEq

/-- The table _attrConverters (ncstream.py lines 214-219): attribute type code to
big-endian numpy dtype; attribute codes BYTE..DOUBLE are 1..6. -/
def _attrConverters : Nat → Option NPDtype
  | 1 => some (NPDtype.mk ['b'] 1 .big)
  | 2 => some (NPDtype.mk ['i', '2'] 2 .big)
  | 3 => some (NPDtype.mk ['i', '4'] 4 .big)
  | 4 => some (NPDtype.mk ['i', '8'] 8 .big)
  | 5 => some (NPDtype.mk ['f', '4'] 4 .big)
  | 6 => some (NPDtype.mk ['f', '8'] 8 .big)
  | _ => none

/-- Decoded attribute value: Python None, a (possibly collapsed) string, a
numpy array of element chunks, or a scalar element extracted from one. -/
inductive AttValue where
  | null
  | str (s : String)
  | arr (dt : NPDtype) (chunks : List (List Nat))
  | scalar (dt : NPDtype) (chunk : List Nat)
deriving DecidableEq

/-- Python `val[0]` on the possible values of `val` in unpack_attribute:
for a string it yields the first character (a one-character string, or an
IndexError when empty); for an array, its first element; `None[0]` is a
TypeError. -/
def attIndexZero : AttValue → Except Err AttValue
  | .null => .error .typeError
  | .str s =>
    match s.toList with
    | [] => .error .indexError
    | c :: _ => .ok (.str (String.mk [c]))
  | .arr dt chunks =>
    match chunks with
    | [] => .error .indexError
    | c :: _ => .ok (.scalar dt c)
  | .scalar dt c => .ok (.scalar dt c)

/-- unpack_attribute (ncstream.py lines 222-237).  `np.fromstring` with a
`count` reads exactly `count` elements, raising ValueError (modelled
`corruptedPayload`) when the data is too short, and ignoring surplus
bytes.  The trailing `if att.len == 1: val = val[0]` applies to whatever
`val` is at that point. -/
def unpack_attribute (att : Attribute) : Except Err (String × AttValue) :=
  match
    (if att.len = 0 then .ok .null
     else if att.type = attSTRING then .ok (.str att.sdata)
     else
       match _attrConverters att.type with
       | none => .error .keyError
       | some dt =>
         if att.len * dt.itemsize ≤ att.data.length then
           .ok (.arr dt (chunkList dt.itemsize (att.data.take (att.len * dt.itemsize))))
         else .error .corruptedPayload : Except Err AttValue)
  with
  | .error e => .error e
  | .ok val =>
    match (if att.len = 1 then attIndexZero val else .ok val) with
    | .error e => .error e
    | .ok val => .ok (att.name, val)

/-- C5 counterexample: a STRING attribute with len = 1 and sdata "ab" is
returned as "a" - the unconditional len == 1 collapse indexes the string,
yielding its first character rather than the full sdata text. -/
theorem unpack_attribute_string_len1_cex :
    unpack_attribute (Attribute.mk "units" attSTRING 1 [] "ab" false)
      = .ok ("units", .str "a")
    ∧ ("a" : String) ≠ "ab" := by
  refine ⟨by decide, by decide⟩

theorem attrConverters_inv {t : Nat} {dt : NPDtype}
    (h : _attrConverters t = some dt) :
    0 < dt.itemsize ∧ dt.byteorder = .big ∧ t ≠ attSTRING := by
  unfold _attrConverters at h
  split at h <;> simp_all [attSTRING] <;> subst h <;> simp

/-- C5 amended: unpack_attribute returns a null value when len == 0; when
the type is STRING it returns the full sdata text only for len != 1, while
for len == 1 the unconditional single-element collapse indexes the string
and yields its first character; otherwise it returns a big-endian array of
exactly len elements decoded from data, collapsed to its first element when
len == 1. -/
theorem unpack_attribute_amended :
    (∀ a : Attribute, a.len = 0 → unpack_attribute a = .ok (a.name, .null))
    ∧ (∀ a : Attribute, a.type = attSTRING → a.len ≠ 0 → a.len ≠ 1 →
        unpack_attribute a = .ok (a.name, .str a.sdata))
    ∧ (∀ (a : Attribute) (c : Char) (cs : List Char), a.type = attSTRING → a.len = 1 →
        a.sdata.toList = c :: cs →
        unpack_attribute a = .ok (a.name, .str (String.mk [c])))
    ∧ (∀ (a : Attribute) (dt : NPDtype), a.type ≠ attSTRING → a.len ≠ 0 → a.len ≠ 1 →
        _attrConverters a.type = some dt → a.len * dt.itemsize ≤ a.data.length →
        unpack_attribute a
            = .ok (a.name, .arr dt (chunkList dt.itemsize (a.data.take (a.len * dt.itemsize))))
          ∧ dt.byteorder = .big
          ∧ (chunkList dt.itemsize (a.data.take (a.len * dt.itemsize))).length = a.len)
    ∧ (∀ (a : Attribute) (dt : NPDtype), a.type ≠ attSTRING → a.len = 1 →
        _attrConverters a.type = some dt → dt.itemsize ≤ a.data.length →
        unpack_attribute a = .ok (a.name, .scalar dt (a.data.take dt.itemsize))) := by
  refine ⟨?_, ?_, ?_, ?_, ?_⟩
  · intro a h0
    simp [unpack_attribute, h0]
  · intro a hstr h0 h1
    simp [unpack_attribute, h0, h1, hstr]
  · intro a c cs hstr h1 hchar
    have hd : a.sdata.data = c :: cs := hchar
    simp only [unpack_attribute, h1, hstr]
    norm_num
    simp [attIndexZero, hd]
  · intro a dt hstr h0 h1 hconv hlen
    have hpos := (attrConverters_inv hconv).1
    have hchunks := @chunkList_spec dt.itemsize a.len
      (a.data.take (a.len * dt.itemsize)) hpos
      (by
        simp only [List.length_take]
        have hcomm : dt.itemsize * a.len = a.len * dt.itemsize := by ring
        omega)
    refine ⟨?_, (attrConverters_inv hconv).2.1, hchunks.1⟩
    simp [unpack_attribute, h0, h1, hstr, hconv, hlen]
  · intro a dt hstr h1 hconv hlen
    have hpos := (attrConverters_inv hconv).1
    have hchunk : chunkList dt.itemsize (a.data.take dt.itemsize)
        = [a.data.take dt.itemsize] := by
      rw [chunkList, if_neg (by omega)]
      have hlt : (a.data.take dt.itemsize).length = dt.itemsize := by
        simp only [List.length_take]
        omega
      cases hmem : a.data.take dt.itemsize with
      | nil =>
        rw [hmem] at hlt
        simp at hlt
        omega
      | cons y ys =>
        rw [hmem] at hlt
        rw [hlt]
        cases hi : dt.itemsize with
        | zero => omega
        | succ k =>
          have hle : (y :: ys).length ≤ k + 1 := by omega
          simp only [chunkAux]
          rw [List.drop_eq_nil_of_le hle, List.take_of_length_le hle]
          simp [chunkAux]
    simp only [unpack_attribute, h1, hconv, one_mul]
    norm_num
    rw [if_neg hstr, if_pos hlen, hchunk]
    simp [attIndexZero]

/-- Witness for C5's amended claim at concrete attributes. -/
theorem unpack_attribute_amended_witness :
    unpack_attribute (Attribute.mk "w1" 3 0 [] "" false) = .ok ("w1", .null)
    ∧ unpack_attribute (Attribute.mk "w2" attSTRING 2 [] "hi" false)
        = .ok ("w2", .str "hi")
    ∧ unpack_attribute (Attribute.mk "w3" attSTRING 1 [] "ab" false)
        = .ok ("w3", .str (String.mk ['a']))
    ∧ unpack_attribute (Attribute.mk "w4" 2 2 [0, 1, 0, 2] "" false)
        = .ok ("w4", .arr (NPDtype.mk ['i', '2'] 2 .big)
            (chunkList 2 (([0, 1, 0, 2] : List Nat).take (2 * 2))))
    ∧ unpack_attribute (Attribute.mk "w5" 3 1 [0, 0, 0, 42] "" false)
        = .ok ("w5", .scalar (NPDtype.mk ['i', '4'] 4 .big)
            (([0, 0, 0, 42] : List Nat).take 4)) :=
  ⟨unpack_attribute_amended.1 (Attribute.mk "w1" 3 0 [] "" false) (by decide),
   unpack_attribute_amended.2.1 (Attribute.mk "w2" attSTRING 2 [] "hi" false)
     (by decide) (by decide) (by decide),
   unpack_attribute_amended.2.2.1 (Attribute.mk "w3" attSTRING 1 [] "ab" false)
     'a' ['b'] (by decide) (by decide) (by decide),
   (unpack_attribute_amended.2.2.2.1 (Attribute.mk "w4" 2 2 [0, 1, 0, 2] "" false)
     (NPDtype.mk ['i', '2'] 2 .big) (by decide) (by decide) (by decide)
     (by decide) (by decide)).1,
   unpack_attribute_amended.2.2.2.2 (Attribute.mk "w5" 3 1 [0, 0, 0, 42] "" false)
     (NPDtype.mk ['i', '4'] 4 .big) (by decide) (by decide) (by decide) (by decide)⟩

/-- Data message header fields used by the decoder (spec section 3):
dataType, compress, bigend, vdata, per-dimension sizes of section.range,
uncompressedSize.  Produced by the external schema decoder. -/
structure Data where
  dataType : Nat
  vdata : Bool
  bigend : Bool
  compress : Nat
  uncompressedSize : Nat
  ranges : List Nat
deriving DecidableEq

/-- StructureData message: bytes-per-record rowLength and the raw record
bytes (spec section 3; the recursive field schema is not consumed by the
code under verification). -/
structure StructureData where
  rowLength : Nat
  data : List Nat
deriving DecidableEq

/-- Default (freshly constructed, unparsed) protobuf StructureData:
all fields empty. -/
def defaultSD : StructureData := StructureData.mk 0 []

/-- The second argument of make_array: either raw bytes or a StructureData
instance (ncstream.py lines 106-115). -/
inductive Buf where
  | bytes (b : List Nat)
  | sd (s : StructureData)
deriving DecidableEq

/-- The materialized numpy array: its dtype, its shape, and its elements
as consecutive byte chunks in row-major order.  A flat (never reshaped)
result has shape [chunks.length]. -/
structure NArray where
  dtype : NPDtype
  shape : List Nat
  chunks : List (List Nat)
deriving DecidableEq

/-- Product of the per-dimension sizes (`tuple(r.size for r in ...)`). -/
def prodList : List Nat → Nat
  | [] => 1
  | x :: xs => x * prodList xs

/-- Dtype-and-buffer resolution of make_array (ncstream.py lines 117-127):
STRUCTURE headers build a void record dtype of width rowLength whose byte
order follows bigend; all others resolve via data_type_to_numpy and are
forced big-endian by `newbyteorder('>')` (`# Again endian isn't coded
properly` / `# Structures properly encode endian, but regular data is big
endian`).  Passing the wrong buffer kind is the corresponding Python
attribute/type error. -/
def resolve_dtype (dh : Data) (buf0 : Buf) : Except Err (List Nat × NPDtype) :=
  if dh.dataType = dtStructure then
    match buf0 with
    | .sd sh =>
      let endian := if dh.bigend then ByteOrder.big else ByteOrder.little
      .ok (sh.data, (NPDtype.mk ['V'] sh.rowLength endian).newbyteorder endian)
    | .bytes _ => .error .attributeError
  else
    match buf0 with
    | .bytes b =>
      match data_type_to_numpy dh.dataType false with
      | none => .error .keyError
      | some dt => .ok (b, dt.newbyteorder .big)
    | .sd _ => .error .typeError

/-- Decompression step of make_array (ncstream.py lines 135-143): DEFLATE
inflates non-STRUCTURE buffers and asserts the inflated length equals
uncompressedSize; STRUCTURE buffers are left alone under DEFLATE; any
other non-NONE code is NotImplementedError.  `infl` abstracts
zlib.decompress. -/
def decompress_step (infl : List Nat → List Nat) (dh : Data) (buf : List Nat) :
    Except Err (List Nat) :=
  if dh.compress = compressDeflate then
    if dh.dataType ≠ dtStructure then
      if (infl buf).length = dh.uncompressedSize then .ok (infl buf)
      else .error .corruptedPayload
    else .ok buf
  else if dh.compress ≠ compressNone then .error (.unsupportedCompression dh.compress)
  else .ok buf

/-- numpy `np.frombuffer(bytearray(buf), dtype=dt)`: refuses object dtypes
and requires the buffer length to be a multiple of the element width;
otherwise yields the consecutive element chunks. -/
def np_frombuffer (dt : NPDtype) (buf : List Nat) : Except Err (List (List Nat)) :=
  if dt.typecode = ['O'] then .error .corruptedPayload
  else if dt.itemsize = 0 then .error .corruptedPayload
  else if buf.length % dt.itemsize = 0 then .ok (chunkList dt.itemsize buf)
  else .error .corruptedPayload

/-- make_array (ncstream.py lines 106-151): resolve dtype and byte order,
resolve the shape (None when vdata), decompress, build the element view,
and reshape when the shape tuple is non-empty (`if shape:`), which requires
the element count to equal the product of the sizes. -/
def make_array (infl : List Nat → List Nat) (dh : Data) (buf0 : Buf) :
    Except Err NArray :=
  match resolve_dtype dh buf0 with
  | .error e => .error e
  | .ok (buf, dt) =>
    let shape := if dh.vdata then none else some dh.ranges
    match decompress_step infl dh buf with
    | .error e => .error e
    | .ok buf =>
      match np_frombuffer dt buf with
      | .error e => .error e
      | .ok chunks =>
        match shape with
        | some sh =>
          if sh ≠ [] then
            if chunks.length = prodList sh then .ok (NArray.mk dt sh chunks)
            else .error .corruptedPayload
          else .ok (NArray.mk dt [chunks.length] chunks)
        | none => .ok (NArray.mk dt [chunks.length] chunks)

theorem data_type_to_numpy_of_isSome {d : Nat}
    (h : (_dtypeLookup d).isSome) : ∃ dt, data_type_to_numpy d false = some dt := by
  cases hl : _dtypeLookup d with
  | none => rw [hl] at h; simp at h
  | some basic =>
    by_cases hso : d = dtString ∨ d = dtOpaque
    · refine ⟨NPDtype.mk basic (np_itemsize basic) .notApplicable, ?_⟩
      rw [data_type_to_numpy, hl]
      simp [hso]
    · refine ⟨NPDtype.mk basic (np_itemsize basic) .native, ?_⟩
      rw [data_type_to_numpy, hl]
      simp [hso]

theorem resolve_dtype_nonstruct_big {dh : Data} {buf0 : Buf} {b : List Nat} {dt : NPDtype}
    (hns : dh.dataType ≠ dtStructure)
    (h : resolve_dtype dh buf0 = .ok (b, dt)) : dt.byteorder = .big := by
  unfold resolve_dtype at h
  rw [if_neg hns] at h
  split at h
  · split at h
    · simp at h
    · simp only [Except.ok.injEq, Prod.mk.injEq] at h
      rw [← h.2]
      rfl
  · simp at h

theorem resolve_dtype_struct_endian {dh : Data} {buf0 : Buf} {b : List Nat} {dt : NPDtype}
    (hs : dh.dataType = dtStructure)
    (h : resolve_dtype dh buf0 = .ok (b, dt)) :
    dt.byteorder = (if dh.bigend then ByteOrder.big else ByteOrder.little) := by
  unfold resolve_dtype at h
  rw [if_pos hs] at h
  split at h
  · simp only [Except.ok.injEq, Prod.mk.injEq] at h
    rw [← h.2]
    cases dh.bigend <;> rfl
  · simp at h

theorem make_array_ok_inv {infl : List Nat → List Nat} {dh : Data} {buf0 : Buf} {r : NArray}
    (h : make_array infl dh buf0 = .ok r) :
    ∃ b dt buf chunks,
      resolve_dtype dh buf0 = .ok (b, dt)
      ∧ decompress_step infl dh b = .ok buf
      ∧ np_frombuffer dt buf = .ok chunks
      ∧ r.dtype = dt ∧ r.chunks = chunks
      ∧ (dh.vdata = true → r.shape = [chunks.length])
      ∧ (dh.vdata = false → dh.ranges ≠ [] →
          r.shape = dh.ranges ∧ chunks.length = prodList dh.ranges)
      ∧ (dh.vdata = false → dh.ranges = [] → r.shape = [chunks.length]) := by
  unfold make_array at h
  by_cases hv : dh.vdata = true
  · simp only [hv, reduceIte] at h
    split at h
    · exact absurd h (by simp)
    · rename_i s0 b dt hrd
      split at h
      · exact absurd h (by simp)
      · rename_i buf hdc
        split at h
        · exact absurd h (by simp)
        · rename_i chunks hfb
          simp only [Except.ok.injEq] at h
          refine ⟨b, dt, buf, chunks, hrd, hdc, hfb, by rw [← h], by rw [← h], ?_, ?_, ?_⟩
          · intro _
            rw [← h]
          · intro hf _
            rw [hv] at hf
            cases hf
          · intro hf _
            rw [hv] at hf
            cases hf
  · have hvf : dh.vdata = false := by
      revert hv
      cases dh.vdata <;> simp
    simp only [hvf, reduceIte] at h
    split at h
    · exact absurd h (by simp)
    · rename_i s0 b dt hrd
      split at h
      · exact absurd h (by simp)
      · rename_i buf hdc
        split at h
        · exact absurd h (by simp)
        · rename_i chunks hfb
          refine ⟨b, dt, buf, chunks, hrd, hdc, hfb, ?_⟩
          simp only [Bool.false_eq_true, if_false] at h
          by_cases hr : dh.ranges = []
          · rw [if_neg (not_not_intro hr)] at h
            simp only [Except.ok.injEq] at h
            refine ⟨by rw [← h], by rw [← h], ?_, ?_, ?_⟩
            · intro hf
              rw [hvf] at hf
              cases hf
            · intro _ hne
              exact absurd hr hne
            · intro _ _
              rw [← h]
          · rw [if_pos hr] at h
            by_cases hcount : chunks.length = prodList dh.ranges
            · rw [if_pos hcount] at h
              simp only [Except.ok.injEq] at h
              refine ⟨by rw [← h], by rw [← h], ?_, ?_, ?_⟩
              · intro hf
                rw [hvf] at hf
                cases hf
              · intro _ _
                rw [← h]
                exact ⟨rfl, hcount⟩
              · intro _ hemp
                exact absurd hemp hr
            · rw [if_neg hcount] at h
              exact absurd h (by simp)

/-- C7: the materialized element encoding of a non-STRUCTURE payload is
big-endian regardless of the bigend flag, while a STRUCTURE payload's
record encoding is big-endian exactly when bigend is set and little-endian
otherwise. -/
theorem make_array_endian_spec :
    (∀ (infl : List Nat → List Nat) (dh : Data) (buf0 : Buf) (r : NArray),
        dh.dataType ≠ dtStructure → make_array infl dh buf0 = .ok r →
        r.dtype.byteorder = .big)
    ∧ (∀ (infl : List Nat → List Nat) (dh : Data) (buf0 : Buf) (r : NArray),
        dh.dataType = dtStructure → make_array infl dh buf0 = .ok r →
        r.dtype.byteorder = (if dh.bigend then ByteOrder.big else ByteOrder.little)) := by
  constructor
  · intro infl dh buf0 r hns h
    obtain ⟨b, dt, buf, chunks, hrd, _, _, hdt, _⟩ := make_array_ok_inv h
    rw [hdt]
    exact resolve_dtype_nonstruct_big hns hrd
  · intro infl dh buf0 r hs h
    obtain ⟨b, dt, buf, chunks, hrd, _, _, hdt, _⟩ := make_array_ok_inv h
    rw [hdt]
    exact resolve_dtype_struct_endian hs hrd

/-- Witness for C7 on concrete INT and STRUCTURE headers. -/
theorem make_array_endian_spec_witness :
    (NArray.mk (NPDtype.mk ['i', '4'] 4 .big) [1] [[0, 0, 0, 1]]).dtype.byteorder = .big
    ∧ (NArray.mk (NPDtype.mk ['V'] 1 .big) [1] [[9]]).dtype.byteorder
        = (if (Data.mk dtStructure false true compressNone 0 []).bigend
            then ByteOrder.big else ByteOrder.little) :=
  ⟨make_array_endian_spec.1 id (Data.mk dtInt false false compressNone 0 [])
      (.bytes [0, 0, 0, 1]) (NArray.mk (NPDtype.mk ['i', '4'] 4 .big) [1] [[0, 0, 0, 1]])
      (by decide) (by decide),
   make_array_endian_spec.2 id (Data.mk dtStructure false true compressNone 0 [])
      (.sd (StructureData.mk 1 [9])) (NArray.mk (NPDtype.mk ['V'] 1 .big) [1] [[9]])
      (by decide) (by decide)⟩

/-- C6: with compress = DEFLATE and a non-STRUCTURE dataType the buffer is
inflated and a wrong inflated length is CorruptedPayload, while a correct
one proceeds exactly as an uncompressed call on the inflated bytes; a
STRUCTURE payload is used verbatim whether compress is NONE or DEFLATE;
any other compress code resolvable by the materializer is
UnsupportedCompression. -/
theorem make_array_compression_spec :
    (∀ (infl : List Nat → List Nat) (dh : Data) (b : List Nat),
        dh.compress = compressDeflate → dh.dataType ≠ dtStructure →
        (_dtypeLookup dh.dataType).isSome →
        (infl b).length ≠ dh.uncompressedSize →
        make_array infl dh (.bytes b) = .error .corruptedPayload)
    ∧ (∀ (infl : List Nat → List Nat) (dh : Data) (b : List Nat),
        dh.compress = compressDeflate → dh.dataType ≠ dtStructure →
        (infl b).length = dh.uncompressedSize →
        make_array infl dh (.bytes b)
          = make_array id (Data.mk dh.dataType dh.vdata dh.bigend compressNone
              dh.uncompressedSize dh.ranges) (.bytes (infl b)))
    ∧ (∀ (infl infl2 : List Nat → List Nat) (dh : Data) (sd0 : StructureData),
        dh.dataType = dtStructure →
        dh.compress = compressNone ∨ dh.compress = compressDeflate →
        make_array infl dh (.sd sd0)
          = make_array infl2 (Data.mk dh.dataType dh.vdata dh.bigend compressNone
              dh.uncompressedSize dh.ranges) (.sd sd0))
    ∧ (∀ (infl : List Nat → List Nat) (dh : Data) (buf0 : Buf),
        dh.compress ≠ compressNone → dh.compress ≠ compressDeflate →
        (∃ b dt, resolve_dtype dh buf0 = .ok (b, dt)) →
        make_array infl dh buf0 = .error (.unsupportedCompression dh.compress)) := by
  refine ⟨?_, ?_, ?_, ?_⟩
  · intro infl dh b hdef hns hlk hlen
    obtain ⟨dt0, hdt⟩ := data_type_to_numpy_of_isSome hlk
    have hrd : resolve_dtype dh (.bytes b) = .ok (b, dt0.newbyteorder .big) := by
      unfold resolve_dtype
      rw [if_neg hns, hdt]
    have hdc : decompress_step infl dh b = .error .corruptedPayload := by
      unfold decompress_step
      rw [if_pos hdef, if_pos hns, if_neg hlen]
    simp [make_array, hrd, hdc]
  · intro infl dh b hdef hns hlen
    by_cases hlk : (_dtypeLookup dh.dataType).isSome
    · obtain ⟨dt0, hdt⟩ := data_type_to_numpy_of_isSome hlk
      have hrd1 : resolve_dtype dh (.bytes b) = .ok (b, dt0.newbyteorder .big) := by
        unfold resolve_dtype
        rw [if_neg hns, hdt]
      have hrd2 : resolve_dtype (Data.mk dh.dataType dh.vdata dh.bigend compressNone
          dh.uncompressedSize dh.ranges) (.bytes (infl b))
          = .ok (infl b, dt0.newbyteorder .big) := by
        unfold resolve_dtype
        rw [if_neg hns, hdt]
      have hdc1 : decompress_step infl dh b = .ok (infl b) := by
        unfold decompress_step
        rw [if_pos hdef, if_pos hns, if_pos hlen]
      have hdc2 : decompress_step id (Data.mk dh.dataType dh.vdata dh.bigend compressNone
          dh.uncompressedSize dh.ranges) (infl b) = .ok (infl b) := by
        unfold decompress_step
        simp [compressNone, compressDeflate]
      simp [make_array, hrd1, hrd2, hdc1, hdc2]
    · have hdt : data_type_to_numpy dh.dataType false = none := by
        rw [data_type_to_numpy]
        cases hl : _dtypeLookup dh.dataType with
        | none => rfl
        | some basic => rw [hl] at hlk; simp at hlk
      have hrd1 : resolve_dtype dh (.bytes b) = .error .keyError := by
        unfold resolve_dtype
        rw [if_neg hns, hdt]
      have hrd2 : resolve_dtype (Data.mk dh.dataType dh.vdata dh.bigend compressNone
          dh.uncompressedSize dh.ranges) (.bytes (infl b)) = .error .keyError := by
        unfold resolve_dtype
        rw [if_neg hns, hdt]
      simp [make_array, hrd1, hrd2]
  · intro infl infl2 dh sd0 hs hcomp
    have hrd1 : resolve_dtype dh (.sd sd0)
        = .ok (sd0.data, (NPDtype.mk ['V'] sd0.rowLength
            (if dh.bigend then ByteOrder.big else ByteOrder.little)).newbyteorder
            (if dh.bigend then ByteOrder.big else ByteOrder.little)) := by
      unfold resolve_dtype
      rw [if_pos hs]
    have hrd2 : resolve_dtype (Data.mk dh.dataType dh.vdata dh.bigend compressNone
        dh.uncompressedSize dh.ranges) (.sd sd0)
        = .ok (sd0.data, (NPDtype.mk ['V'] sd0.rowLength
            (if dh.bigend then ByteOrder.big else ByteOrder.little)).newbyteorder
            (if dh.bigend then ByteOrder.big else ByteOrder.little)) := by
      unfold resolve_dtype
      rw [if_pos hs]
    have hdc1 : decompress_step infl dh sd0.data = .ok sd0.data := by
      unfold decompress_step
      rcases hcomp with hc | hc
      · rw [hc]
        simp [compressNone, compressDeflate]
      · rw [hc]
        rw [if_pos rfl, if_neg (not_not_intro hs)]
    have hdc2 : decompress_step infl2 (Data.mk dh.dataType dh.vdata dh.bigend compressNone
        dh.uncompressedSize dh.ranges) sd0.data = .ok sd0.data := by
      unfold decompress_step
      simp [compressNone, compressDeflate]
    simp [make_array, hrd1, hrd2, hdc1, hdc2]
  · intro infl dh buf0 hc1 hc2 hres
    obtain ⟨b, dt, hrd⟩ := hres
    have hdc : decompress_step infl dh b
        = .error (.unsupportedCompression dh.compress) := by
      unfold decompress_step
      rw [if_neg hc2, if_pos hc1]
    simp [make_array, hrd, hdc]

/-- Witness for C6 on concrete headers and a concrete inflater. -/
theorem make_array_compression_spec_witness :
    make_array (fun _ => [0, 0, 0, 7]) (Data.mk dtInt false false compressDeflate 5 [])
        (.bytes [1]) = .error .corruptedPayload
    ∧ make_array (fun _ => [0, 0, 0, 7]) (Data.mk dtInt false false compressDeflate 4 [])
        (.bytes [1])
        = make_array id (Data.mk dtInt false false compressNone 4 [])
            (.bytes ((fun (_ : List Nat) => [0, 0, 0, 7]) [1]))
    ∧ make_array (fun _ => []) (Data.mk dtStructure false true compressDeflate 0 [])
        (.sd (StructureData.mk 1 [9]))
        = make_array id (Data.mk dtStructure false true compressNone 0 [])
            (.sd (StructureData.mk 1 [9]))
    ∧ make_array id (Data.mk dtInt false false 3 0 []) (.bytes [])
        = .error (.unsupportedCompression 3) :=
  ⟨make_array_compression_spec.1 (fun _ => [0, 0, 0, 7])
      (Data.mk dtInt false false compressDeflate 5 []) [1]
      (by decide) (by decide) (by decide) (by decide),
   make_array_compression_spec.2.1 (fun _ => [0, 0, 0, 7])
      (Data.mk dtInt false false compressDeflate 4 []) [1]
      (by decide) (by decide) (by decide),
   make_array_compression_spec.2.2.1 (fun _ => []) id
      (Data.mk dtStructure false true compressDeflate 0 []) (StructureData.mk 1 [9])
      (by decide) (Or.inr (by decide)),
   make_array_compression_spec.2.2.2 id (Data.mk dtInt false false 3 0 []) (.bytes [])
      (by decide) (by decide)
      ⟨[], NPDtype.mk ['i', '4'] 4 .big, by decide⟩⟩

/-- Big-endian unsigned interpretation of an element chunk.  For the small
positive values of the C8 example it coincides with the signed i4
interpretation. -/
def decodeBE (bs : List Nat) : Nat :=
  bs.foldl (fun acc b => 256 * acc + b) 0

/-- The C8 example header: dataType INT, no compression, not vdata,
section.range sizes [2, 3]. -/
def dhC8 : Data := Data.mk dtInt false false compressNone 0 [2, 3]

/-- The C8 example payload: six big-endian 4-byte integers 1..6. -/
def bufC8 : List Nat :=
  [0, 0, 0, 1, 0, 0, 0, 2, 0, 0, 0, 3, 0, 0, 0, 4, 0, 0, 0, 5, 0, 0, 0, 6]

/-- C8 counterexample: a non-vdata INT header whose section.range list is
empty succeeds on a payload of two 4-byte elements, returning a flat
2-element array - the source's falsy-tuple check `if shape:` (line 148)
skips both the reshape and the count check - although the tuple of range
sizes is empty with product 1, where the claim as stated demands a
reshape and a CorruptedPayload failure for the non-dividing count. -/
theorem make_array_empty_ranges_cex :
    make_array id (Data.mk dtInt false false compressNone 0 [])
        (.bytes [0, 0, 0, 1, 0, 0, 0, 2])
      = .ok (NArray.mk (NPDtype.mk ['i', '4'] 4 .big) [2]
          (chunkList 4 [0, 0, 0, 1, 0, 0, 0, 2]))
    ∧ (chunkList 4 [0, 0, 0, 1, 0, 0, 0, 2]).length ≠ prodList []
    ∧ ([2] : List Nat) ≠ (Data.mk dtInt false false compressNone 0 []).ranges := by
  refine ⟨by decide, by decide, by decide⟩

/-- C8 amended: a vdata header is never reshaped (the result stays a flat
1-D buffer); a non-vdata header with a NON-EMPTY range list is reshaped to
the tuple of range sizes, failing with CorruptedPayload when the element
count differs from their product; a non-vdata header with an EMPTY range
list is left flat with any element count (the falsy-tuple check skips the
reshape); and the concrete 2x3 INT example materializes to
[[1,2,3],[4,5,6]] (row-major chunks [1..6] with shape [2,3]). -/
theorem make_array_shape_spec :
    (∀ (infl : List Nat → List Nat) (dh : Data) (buf0 : Buf) (r : NArray),
        dh.vdata = true → make_array infl dh buf0 = .ok r →
        r.shape = [r.chunks.length])
    ∧ (∀ (infl : List Nat → List Nat) (dh : Data) (buf0 : Buf) (r : NArray),
        dh.vdata = false → dh.ranges ≠ [] → make_array infl dh buf0 = .ok r →
        r.shape = dh.ranges ∧ r.chunks.length = prodList dh.ranges)
    ∧ (∀ (infl : List Nat → List Nat) (dh : Data) (b : List Nat) (dt : NPDtype)
          (chunks : List (List Nat)),
        dh.vdata = false → dh.ranges ≠ [] →
        resolve_dtype dh (.bytes b) = .ok (b, dt) →
        decompress_step infl dh b = .ok b →
        np_frombuffer dt b = .ok chunks →
        chunks.length ≠ prodList dh.ranges →
        make_array infl dh (.bytes b) = .error .corruptedPayload)
    ∧ (∀ (infl : List Nat → List Nat) (dh : Data) (buf0 : Buf) (r : NArray),
        dh.vdata = false → dh.ranges = [] → make_array infl dh buf0 = .ok r →
        r.shape = [r.chunks.length])
    ∧ (make_array id dhC8 (.bytes bufC8)
          = .ok (NArray.mk (NPDtype.mk ['i', '4'] 4 .big) [2, 3] (chunkList 4 bufC8))
        ∧ (chunkList 4 bufC8).map decodeBE = [1, 2, 3, 4, 5, 6]
        ∧ prodList [2, 3] = 6) := by
  refine ⟨?_, ?_, ?_, ?_, by decide, by decide, by decide⟩
  · intro infl dh buf0 r hv h
    obtain ⟨b, dt, buf, chunks, _, _, _, _, hch, hsh, _, _⟩ := make_array_ok_inv h
    rw [hch, hsh hv]
  · intro infl dh buf0 r hv hr h
    obtain ⟨b, dt, buf, chunks, _, _, _, _, hch, _, hsh, _⟩ := make_array_ok_inv h
    obtain ⟨h1, h2⟩ := hsh hv hr
    rw [hch]
    exact ⟨h1, h2⟩
  · intro infl dh b dt chunks hv hr hrd hdc hfb hcount
    simp only [make_array, hrd, hdc, hfb, hv, Bool.false_eq_true, if_false]
    rw [if_pos hr, if_neg hcount]
  · intro infl dh buf0 r hv hr h
    obtain ⟨b, dt, buf, chunks, _, _, _, _, hch, _, _, hsh⟩ := make_array_ok_inv h
    rw [hch, hsh hv hr]

/-- Witness for C8's amended universally quantified parts at concrete headers. -/
theorem make_array_shape_spec_witness :
    (NArray.mk (NPDtype.mk ['i', '4'] 4 .big) [1] [[0, 0, 0, 1]]).shape
        = [(NArray.mk (NPDtype.mk ['i', '4'] 4 .big) [1] [[0, 0, 0, 1]]).chunks.length]
    ∧ ((NArray.mk (NPDtype.mk ['i', '4'] 4 .big) [2, 3] (chunkList 4 bufC8)).shape
          = dhC8.ranges
        ∧ (NArray.mk (NPDtype.mk ['i', '4'] 4 .big) [2, 3]
            (chunkList 4 bufC8)).chunks.length = prodList dhC8.ranges)
    ∧ make_array id (Data.mk dtInt false false compressNone 0 [2, 2])
        (.bytes [0, 0, 0, 1, 0, 0, 0, 2]) = .error .corruptedPayload
    ∧ (NArray.mk (NPDtype.mk ['i', '4'] 4 .big) [2] (chunkList 4 [0, 0, 0, 1, 0, 0, 0, 2])).shape
        = [(NArray.mk (NPDtype.mk ['i', '4'] 4 .big) [2]
            (chunkList 4 [0, 0, 0, 1, 0, 0, 0, 2])).chunks.length] :=
  ⟨make_array_shape_spec.1 id (Data.mk dtInt true false compressNone 0 [])
      (.bytes [0, 0, 0, 1]) (NArray.mk (NPDtype.mk ['i', '4'] 4 .big) [1] [[0, 0, 0, 1]])
      (by decide) (by decide),
   make_array_shape_spec.2.1 id dhC8 (.bytes bufC8)
      (NArray.mk (NPDtype.mk ['i', '4'] 4 .big) [2, 3] (chunkList 4 bufC8))
      (by decide) (by decide) (by decide),
   make_array_shape_spec.2.2.1 id (Data.mk dtInt false false compressNone 0 [2, 2])
      [0, 0, 0, 1, 0, 0, 0, 2] (NPDtype.mk ['i', '4'] 4 .big)
      (chunkList 4 [0, 0, 0, 1, 0, 0, 0, 2])
      (by decide) (by decide) (by decide) (by decide) (by decide) (by decide),
   make_array_shape_spec.2.2.2.1 id (Data.mk dtInt false false compressNone 0 [])
      (.bytes [0, 0, 0, 1, 0, 0, 0, 2])
      (NArray.mk (NPDtype.mk ['i', '4'] 4 .big) [2] (chunkList 4 [0, 0, 0, 1, 0, 0, 0, 2]))
      (by decide) (by decide) (by decide)⟩

/-- Decoded messages accumulated by read_ncstream_messages, one constructor
per append site: a Header (content modelled as the raw block bytes the
schema decoder would parse), the two ragged results of the
string/opaque/vdata branch, a materialized array, or the (data, blocks)
pair appended for a SEQUENCE. -/
inductive Message where
  | header (content : List Nat)
  | vdataArray (dt : NPDtype) (blocks : List (List (List Nat)))
  | objArray (dt : NPDtype) (blocks : List (List Nat))
  | ndarray (a : NArray)
  | structBlock (d : Data) (blocks : List StructureData)
deriving DecidableEq

/-- Model of `messages.append(stream.Header())` followed by
`messages[0].ParseFromString(block)` (ncstream.py lines 34-35): the parse
result lands in the FIRST list element, whatever it is; ParseFromString on
a non-message object (any non-header message) is an AttributeError, and
indexing an empty list an IndexError. -/
def parse_into_first (msgs : List Message) (blk : List Nat) :
    Except Err (List Message) :=
  match msgs with
  | .header _ :: rest => .ok (.header blk :: rest)
  | _ :: _ => .error .attributeError
  | [] => .error .indexError

/-- Model of `[read_block(fobj) for _ in range(num_obj)]` (line 45). -/
def read_blocks : Nat → List Nat → Except Err (List (List Nat) × List Nat)
  | 0, s => .ok ([], s)
  | n + 1, s =>
    match read_block s with
    | .error e => .error e
    | .ok (b, s₁) =>
      match read_blocks n s₁ with
      | .error e => .error e
      | .ok (bs, s₂) => .ok (b :: bs, s₂)

/-- Model of `[np.frombuffer(b, dtype=dt) for b in blocks]` (line 52). -/
def frombuffer_blocks (dt : NPDtype) : List (List Nat) →
    Except Err (List (List (List Nat)))
  | [] => .ok []
  | b :: bs =>
    match np_frombuffer dt b with
    | .error e => .error e
    | .ok c =>
      match frombuffer_blocks dt bs with
      | .error e => .error e
      | .ok cs => .ok (c :: cs)

/-- SEQUENCE sub-loop (ncstream.py lines 71-78): read a magic; stop on VEND
(consuming it and nothing further); otherwise (a VDATA magic is expected -
anything else is merely logged) append a fresh StructureData and parse the
next block into `blocks[0]` - the index 0 is the source's own; every
iteration parses into the first element, not the last. -/
def seq_loop (parseSD : List Nat → StructureData) (s : List Nat)
    (blocks : List StructureData) : Except Err (List StructureData × List Nat) :=
  if (read_magic s).1 = MAGIC_VEND then .ok (blocks, (read_magic s).2)
  else
    match h : read_block (read_magic s).2 with
    | .error e => .error e
    | .ok (blk, s₁) =>
      seq_loop parseSD s₁ ((blocks ++ [defaultSD]).set 0 (parseSD blk))
termination_by s.length
decreasing_by
  have h1 := read_block_length h
  have h2 : ((read_magic s).2).length ≤ s.length := by simp [read_magic]
  omega

theorem seq_loop_length (psd : List Nat → StructureData) :
    ∀ (n : Nat) (s : List Nat) (blocks bl : List StructureData) (s' : List Nat),
      s.length ≤ n → seq_loop psd s blocks = .ok (bl, s') → s'.length ≤ s.length := by
  intro n
  induction n with
  | zero =>
    intro s blocks bl s' hn h
    have hs : s = [] := by
      cases s with
      | nil => rfl
      | cons a l => simp at hn
    subst hs
    rw [seq_loop] at h
    simp [read_magic, MAGIC_VEND, read_block, read_var_int, read_var_int_aux] at h
  | succ m ih =>
    intro s blocks bl s' hn h
    rw [seq_loop] at h
    split at h
    · simp only [Except.ok.injEq, Prod.mk.injEq] at h
      rw [← h.2]
      simp [read_magic]
    · split at h
      · exact absurd h (by simp)
      · rename_i blk s₁ heq
        have h1 := read_block_length heq
        have h2 : ((read_magic s).2).length ≤ s.length := by simp [read_magic]
        have h3 := ih s₁ _ bl s' (by omega) h
        omega

/-- The DATA-magic branch of read_ncstream_messages (ncstream.py lines
42-82), after the Data header has been decoded from its block.  The
string/opaque/vdata branch carries its blocks as raw bytes (the utf-8 text
decode of STRING blocks, errors ignored, is abstracted away); `infl`
abstracts zlib.decompress for make_array. -/
def handle_data (parseSD : List Nat → StructureData) (infl : List Nat → List Nat)
    (data : Data) (s : List Nat) : Except Err (Message × List Nat) :=
  if data.dataType = dtString ∨ data.dataType = dtOpaque ∨ data.vdata = true then
    match read_var_int s with
    | .error e => .error e
    | .ok (num_obj, s₁) =>
      match read_blocks num_obj s₁ with
      | .error e => .error e
      | .ok (blocks, s₂) =>
        match data_type_to_numpy data.dataType false with
        | none => .error .keyError
        | some dt0 =>
          if data.vdata = true then
            match frombuffer_blocks (dt0.newbyteorder .big) blocks with
            | .error e => .error e
            | .ok chunked => .ok (.vdataArray (dt0.newbyteorder .big) chunked, s₂)
          else .ok (.objArray (dt0.newbyteorder .big) blocks, s₂)
  else if (_dtypeLookup data.dataType).isSome then
    match read_block s with
    | .error e => .error e
    | .ok (bin_data, s₁) =>
      match make_array infl data (.bytes bin_data) with
      | .error e => .error e
      | .ok arr => .ok (.ndarray arr, s₁)
  else if data.dataType = dtStructure then
    match read_block s with
    | .error e => .error e
    | .ok (blk, s₁) =>
      match make_array infl data (.sd (parseSD blk)) with
      | .error e => .error e
      | .ok arr => .ok (.ndarray arr, s₁)
  else if data.dataType = dtSequence then
    match seq_loop parseSD s [] with
    | .error e => .error e
    | .ok (blocks, s₁) => .ok (.structBlock data blocks, s₁)
  else .error (.unsupportedDataType data.dataType)

theorem read_blocks_length :
    ∀ {n : Nat} {s : List Nat} {bs : List (List Nat)} {s' : List Nat},
      read_blocks n s = .ok (bs, s') → s'.length ≤ s.length := by
  intro n
  induction n with
  | zero =>
    intro s bs s' h
    simp only [read_blocks, Except.ok.injEq, Prod.mk.injEq] at h
    rw [← h.2]
  | succ m ih =>
    intro s bs s' h
    rw [read_blocks] at h
    split at h
    · exact absurd h (by simp)
    · rename_i b s₁ heq
      split at h
      · exact absurd h (by simp)
      · rename_i bs₂ s₂ heq2
        simp only [Except.ok.injEq, Prod.mk.injEq] at h
        have h1 := read_block_length heq
        have h2 := ih heq2
        rw [← h.2] at *
        omega

theorem handle_data_length {psd : List Nat → StructureData}
    {infl : List Nat → List Nat} {data : Data} {s : List Nat} {m : Message}
    {s' : List Nat} (h : handle_data psd infl data s = .ok (m, s')) :
    s'.length ≤ s.length := by
  rw [handle_data] at h
  split at h
  · split at h
    · exact absurd h (by simp)
    · rename_i num s₁ hvar
      split at h
      · exact absurd h (by simp)
      · rename_i blocks s₂ hblocks
        split at h
        · exact absurd h (by simp)
        · rename_i dt0 hdt
          have h1 := read_var_int_length hvar
          have h2 := read_blocks_length hblocks
          split at h
          · split at h
            · exact absurd h (by simp)
            · rename_i chunked hfbs
              simp only [Except.ok.injEq, Prod.mk.injEq] at h
              rw [← h.2]
              omega
          · simp only [Except.ok.injEq, Prod.mk.injEq] at h
            rw [← h.2]
            omega
  · split at h
    · split at h
      · exact absurd h (by simp)
      · rename_i bin s₁ hblk
        split at h
        · exact absurd h (by simp)
        · rename_i arr harr
          simp only [Except.ok.injEq, Prod.mk.injEq] at h
          have h1 := read_block_length hblk
          rw [← h.2]
          omega
    · split at h
      · split at h
        · exact absurd h (by simp)
        · rename_i blk s₁ hblk
          split at h
          · exact absurd h (by simp)
          · rename_i arr harr
            simp only [Except.ok.injEq, Prod.mk.injEq] at h
            have h1 := read_block_length hblk
            rw [← h.2]
            omega
      · split at h
        · split at h
          · exact absurd h (by simp)
          · rename_i blocks s₁ hsq
            simp only [Except.ok.injEq, Prod.mk.injEq] at h
            have h1 := seq_loop_length psd s.length s [] blocks s₁ (le_refl _) hsq
            rw [← h.2]
            omega
        · exact absurd h (by simp)

/-- The decode loop of read_ncstream_messages (ncstream.py lines 27-90)
with the accumulated message list made explicit.  Each iteration reads a
4-byte magic; an empty read ends the loop; HEADER appends a fresh Header
and parses the next block into messages[0] (the source's own index); DATA
decodes a Data header from the next block and dispatches on it; ERR
decodes an Error message and raises; any other (including short) magic is
only logged and the loop continues. -/
def run (parseData : List Nat → Data) (parseSD : List Nat → StructureData)
    (infl : List Nat → List Nat) (s : List Nat) (msgs : List Message) :
    Except Err (List Message) :=
  if (read_magic s).1.isEmpty then .ok msgs
  else if (read_magic s).1 = MAGIC_HEADER then
    match h : read_block (read_magic s).2 with
    | .error e => .error e
    | .ok (blk, s₂) =>
      match parse_into_first (msgs ++ [.header []]) blk with
      | .error e => .error e
      | .ok msgs₂ => run parseData parseSD infl s₂ msgs₂
  else if (read_magic s).1 = MAGIC_DATA then
    match h : read_block (read_magic s).2 with
    | .error e => .error e
    | .ok (blk, s₂) =>
      match hd : handle_data parseSD infl (parseData blk) s₂ with
      | .error e => .error e
      | .ok (msg, s₃) => run parseData parseSD infl s₃ (msgs ++ [msg])
  else if (read_magic s).1 = MAGIC_ERR then
    match read_block (read_magic s).2 with
    | .error e => .error e
    | .ok (blk, _) => .error (.serverError blk)
  else run parseData parseSD infl (read_magic s).2 msgs
termination_by s.length
decreasing_by
  · have h1 := read_block_length h
    have h2 : ((read_magic s).2).length ≤ s.length := by simp [read_magic]
    omega
  · have h1 := read_block_length h
    have h2 := handle_data_length hd
    have h3 : ((read_magic s).2).length ≤ s.length := by simp [read_magic]
    omega
  · rename_i hne _ _ _
    have hs : s ≠ [] := by
      intro hs
      subst hs
      exact hne (by rfl)
    have : 0 < s.length := List.length_pos.mpr hs
    simp only [read_magic, List.length_drop]
    omega

/-- read_ncstream_messages (ncstream.py lines 24-90): run the decode loop
on the whole byte source with an empty initial message list.  `parseData`
and `parseSD` abstract the protobuf ParseFromString calls for Data and
StructureData; `infl` abstracts zlib.decompress. -/
def read_ncstream_messages (parseData : List Nat → Data)
    (parseSD : List Nat → StructureData) (infl : List Nat → List Nat)
    (s : List Nat) : Except Err (List Message) :=
  run parseData parseSD infl s []

theorem run_nil (pd : List Nat → Data) (psd : List Nat → StructureData)
    (infl : List Nat → List Nat) (msgs : List Message) :
    run pd psd infl [] msgs = .ok msgs := by
  rw [run]
  simp [read_magic]

theorem run_header_step {pd : List Nat → Data} {psd : List Nat → StructureData}
    {infl : List Nat → List Nat} {s blk s₂ : List Nat} {msgs msgs₂ : List Message}
    (hb : read_block s = .ok (blk, s₂))
    (hp : parse_into_first (msgs ++ [.header []]) blk = .ok msgs₂) :
    run pd psd infl (MAGIC_HEADER ++ s) msgs = run pd psd infl s₂ msgs₂ := by
  rw [run]
  have hm1 : (read_magic (MAGIC_HEADER ++ s)).1 = MAGIC_HEADER := by
    simp [read_magic, MAGIC_HEADER]
  have hm2 : (read_magic (MAGIC_HEADER ++ s)).2 = s := by
    simp [read_magic, MAGIC_HEADER]
  rw [hm1, hm2, if_neg (by decide), if_pos rfl]
  split
  · rename_i e heq
    rw [hb] at heq
    cases heq
  · rename_i blk2 s3 heq
    rw [hb] at heq
    simp only [Except.ok.injEq, Prod.mk.injEq] at heq
    obtain ⟨hblk, hs⟩ := heq
    subst hblk
    subst hs
    rw [hp]

theorem run_data_step {pd : List Nat → Data} {psd : List Nat → StructureData}
    {infl : List Nat → List Nat} {s blk s₂ s₃ : List Nat} {msg : Message}
    {msgs : List Message}
    (hb : read_block s = .ok (blk, s₂))
    (hh : handle_data psd infl (pd blk) s₂ = .ok (msg, s₃)) :
    run pd psd infl (MAGIC_DATA ++ s) msgs = run pd psd infl s₃ (msgs ++ [msg]) := by
  rw [run]
  have hm1 : (read_magic (MAGIC_DATA ++ s)).1 = MAGIC_DATA := by
    simp [read_magic, MAGIC_DATA]
  have hm2 : (read_magic (MAGIC_DATA ++ s)).2 = s := by
    simp [read_magic, MAGIC_DATA]
  rw [hm1, hm2, if_neg (by decide), if_neg (by decide), if_pos rfl]
  split
  · rename_i e heq
    rw [hb] at heq
    cases heq
  · rename_i blk2 s4 heq
    rw [hb] at heq
    simp only [Except.ok.injEq, Prod.mk.injEq] at heq
    obtain ⟨hblk, hs⟩ := heq
    subst hblk
    subst hs
    split
    · rename_i e heq2
      rw [hh] at heq2
      cases heq2
    · rename_i msg2 s5 heq2
      rw [hh] at heq2
      simp only [Except.ok.injEq, Prod.mk.injEq] at heq2
      obtain ⟨hmsg, hs5⟩ := heq2
      subst hmsg
      subst hs5
      rfl

theorem seq_loop_vend (psd : List Nat → StructureData) (s : List Nat)
    (blocks : List StructureData) :
    seq_loop psd (MAGIC_VEND ++ s) blocks = .ok (blocks, s) := by
  rw [seq_loop]
  have hm1 : (read_magic (MAGIC_VEND ++ s)).1 = MAGIC_VEND := by
    simp [read_magic, MAGIC_VEND]
  have hm2 : (read_magic (MAGIC_VEND ++ s)).2 = s := by
    simp [read_magic, MAGIC_VEND]
  rw [hm1, hm2, if_pos rfl]

theorem seq_loop_step {psd : List Nat → StructureData} (m : List Nat)
    {s blk s₁ : List Nat} {blocks : List StructureData}
    (hm : m.length = 4) (hne : m ≠ MAGIC_VEND)
    (hb : read_block s = .ok (blk, s₁)) :
    seq_loop psd (m ++ s) blocks
      = seq_loop psd s₁ ((blocks ++ [defaultSD]).set 0 (psd blk)) := by
  rw [seq_loop]
  have hm1 : (read_magic (m ++ s)).1 = m := by
    simp only [read_magic]
    rw [← hm]
    exact List.take_left m s
  have hm2 : (read_magic (m ++ s)).2 = s := by
    simp only [read_magic]
    exact List.drop_left' hm
  rw [hm1, hm2, if_neg hne]
  split
  · rename_i e heq
    rw [hb] at heq
    cases heq
  · rename_i blk2 s2 heq
    rw [hb] at heq
    simp only [Except.ok.injEq, Prod.mk.injEq] at heq
    obtain ⟨hblk, hs⟩ := heq
    subst hblk
    subst hs
    rfl

/-- C10: from any accumulated message list, a trailing fragment of 1 to 3
bytes after the last complete frame does not raise: the short magic read is
nonempty but matches no magic (all magics are 4 bytes), it is consumed as
an unrecognized magic with nothing appended, the next magic read returns
zero bytes, and the loop returns the messages accumulated so far. -/
theorem trailing_fragment_returns (pd : List Nat → Data)
    (psd : List Nat → StructureData) (infl : List Nat → List Nat) :
    ∀ (frag : List Nat) (msgs : List Message), 1 ≤ frag.length → frag.length ≤ 3 →
      run pd psd infl frag msgs = .ok msgs := by
  intro frag msgs h1 h3
  have hfne : frag ≠ [] := by
    intro hc
    subst hc
    simp at h1
  have hne4 : ∀ m : List Nat, m.length = 4 → frag ≠ m := by
    intro m hm hc
    rw [hc] at h3
    omega
  rw [run]
  have hm1 : (read_magic frag).1 = frag := by
    simp only [read_magic]
    exact List.take_of_length_le (by omega)
  have hm2 : (read_magic frag).2 = [] := by
    simp only [read_magic]
    exact List.drop_eq_nil_of_le (by omega)
  rw [hm1, hm2]
  rw [if_neg (by simp [List.isEmpty_iff, hfne]),
    if_neg (hne4 MAGIC_HEADER (by decide)),
    if_neg (hne4 MAGIC_DATA (by decide)),
    if_neg (hne4 MAGIC_ERR (by decide))]
  exact run_nil pd psd infl msgs

/-- Concrete trivial schema parsers for the closed evaluations: a Data
header whose dataType is the first block byte, and a StructureData whose
rowLength is the block length and whose data is the block itself. -/
def pd0 : List Nat → Data :=
  fun b => Data.mk (b.headD 0) false false compressNone 0 []

/-- Concrete StructureData parser: rowLength is the block length, data the
block bytes. -/
def psd0 : List Nat → StructureData :=
  fun b => StructureData.mk b.length b

/-- Witness for C10: a single stray 0xFF byte after the last frame. -/
theorem trailing_fragment_returns_witness :
    run pd0 psd0 id [0xFF] [] = .ok [] :=
  trailing_fragment_returns pd0 psd0 id [0xFF] [] (by decide) (by decide)

/-- The C2 failing stream: two HEADER frames, the first with block [5], the
second with block [7]. -/
def streamC2 : List Nat := MAGIC_HEADER ++ ([1, 5] ++ (MAGIC_HEADER ++ [1, 7]))

/-- C2 (code bug): decoding two HEADER frames yields [Header [7], Header []]
- the second frame's block is parsed into messages[0], overwriting the
first header, and the appended second Header is left empty - instead of the
[Header [5], Header [7]] the claim describes. -/
theorem header_overwrite_bug :
    read_ncstream_messages pd0 psd0 id streamC2 = .ok [.header [7], .header []]
    ∧ ([Message.header [7], .header []] : List Message)
        ≠ [.header [5], .header [7]] := by
  constructor
  · rw [read_ncstream_messages, streamC2]
    have e1 : read_block ([1, 5] ++ (MAGIC_HEADER ++ [1, 7]))
        = .ok ([5], MAGIC_HEADER ++ [1, 7]) := by decide
    have p1 : parse_into_first (([] : List Message) ++ [.header []]) [5]
        = .ok [.header [5]] := by decide
    rw [run_header_step e1 p1]
    have e2 : read_block [1, 7] = .ok ([7], []) := by decide
    have p2 : parse_into_first ([Message.header [5]] ++ [.header []]) [7]
        = .ok [.header [7], .header []] := by decide
    rw [run_header_step e2 p2]
    exact run_nil pd0 psd0 id [.header [7], .header []]
  · decide

/-- The C1 failing stream: a DATA frame whose Data block [9] decodes (via
pd0) to dataType SEQUENCE, then two StructureData frames with blocks [1]
and [2], then VEND. -/
def streamC1 : List Nat :=
  MAGIC_DATA ++ ([1, 9] ++ (MAGIC_VDATA ++ ([1, 1] ++ (MAGIC_VDATA ++ ([1, 2] ++ MAGIC_VEND)))))

/-- C1 (code bug): the SEQUENCE sub-loop appends one StructureBlock message
whose blocks list has exactly N = 2 entries, but every frame is parsed into
blocks[0]: the result is [decode(frame 1), default-empty] instead of
[decode(frame 0), decode(frame 1)].  The separate seq_loop conjunct shows
reading stops at the VEND magic with the bytes after it untouched. -/
theorem sequence_blocks_bug :
    read_ncstream_messages pd0 psd0 id streamC1
        = .ok [.structBlock (Data.mk 9 false false compressNone 0 [])
            [StructureData.mk 1 [2], StructureData.mk 0 []]]
    ∧ psd0 [1] = StructureData.mk 1 [1]
    ∧ psd0 [2] = StructureData.mk 1 [2]
    ∧ ([StructureData.mk 1 [2], StructureData.mk 0 []] : List StructureData)
        ≠ [psd0 [1], psd0 [2]]
    ∧ seq_loop psd0
        (MAGIC_VDATA ++ ([1, 1] ++ (MAGIC_VDATA ++ ([1, 2] ++ (MAGIC_VEND ++ [0xAA]))))) []
        = .ok ([StructureData.mk 1 [2], StructureData.mk 0 []], [0xAA]) := by
  have hseq : ∀ tail : List Nat,
      seq_loop psd0
          (MAGIC_VDATA ++ ([1, 1] ++ (MAGIC_VDATA ++ ([1, 2] ++ (MAGIC_VEND ++ tail))))) []
        = .ok ([StructureData.mk 1 [2], StructureData.mk 0 []], tail) := by
    intro tail
    have e1 : read_block ([1, 1] ++ (MAGIC_VDATA ++ ([1, 2] ++ (MAGIC_VEND ++ tail))))
        = .ok ([1], MAGIC_VDATA ++ ([1, 2] ++ (MAGIC_VEND ++ tail))) := by rfl
    rw [seq_loop_step MAGIC_VDATA (by decide) (by decide) e1]
    have e2 : read_block ([1, 2] ++ (MAGIC_VEND ++ tail))
        = .ok ([2], MAGIC_VEND ++ tail) := by rfl
    rw [seq_loop_step MAGIC_VDATA (by decide) (by decide) e2]
    have hb : (((([] : List StructureData) ++ [defaultSD]).set 0 (psd0 [1])
          ++ [defaultSD]).set 0 (psd0 [2]))
        = [StructureData.mk 1 [2], StructureData.mk 0 []] := by decide
    rw [hb, seq_loop_vend]
  refine ⟨?_, by decide, by decide, by decide, hseq [0xAA]⟩
  rw [read_ncstream_messages, streamC1]
  have e1 : read_block
      ([1, 9] ++ (MAGIC_VDATA ++ ([1, 1] ++ (MAGIC_VDATA ++ ([1, 2] ++ MAGIC_VEND)))))
      = .ok ([9], MAGIC_VDATA ++ ([1, 1] ++ (MAGIC_VDATA ++ ([1, 2] ++ (MAGIC_VEND ++ []))))) := by
    decide
  have hhd : handle_data psd0 id (pd0 [9])
      (MAGIC_VDATA ++ ([1, 1] ++ (MAGIC_VDATA ++ ([1, 2] ++ (MAGIC_VEND ++ [])))))
      = .ok (.structBlock (Data.mk 9 false false compressNone 0 [])
          [StructureData.mk 1 [2], StructureData.mk 0 []], []) := by
    rw [handle_data]
    rw [if_neg (by decide), if_neg (by decide), if_neg (by decide), if_pos (by decide)]
    rw [hseq []]
    rfl
  rw [run_data_step e1 hhd, run_nil]
  rfl

end Ncstream
